import Mathlib

/-!
Shallow embedding of the VoltFlow charging-monitor core
(src/App.tsx together with the ChargingLog / SessionStats record shapes
from src/types.ts and the getChargingInsights service function).

Modelling choices:
* JavaScript numbers are modelled as rationals (ℚ); timestamps are the
  millisecond values produced by the ambient clock.
* The random jitter source used by estimateElectricalProperties is passed
  in as an explicit parameter r, with 0 ≤ r < 1 standing for Math.random().
* The external text-generation call inside getChargingInsights is modelled
  by its outcome, an Except value: ok with the (possibly absent) response
  text, or error on any failure of the call.
* The React state updates of one effect run are modelled as one sequential
  state-transition function step; this matches the queued-update semantics
  in which a functional updater observes the previously queued value.
-/

namespace VoltFlow

/-- Battery status tag on a telemetry sample (src/types.ts, ChargingLog.status). -/
inductive Status where
  | charging
  | discharging
deriving DecidableEq

/-- One telemetry history entry (src/types.ts, ChargingLog). -/
structure ChargingLog where
  timestamp : ℚ
  level : ℚ
  wattage : ℚ
  voltage : ℚ
  amperage : ℚ
  status : Status
deriving DecidableEq

/-- One charging session record (src/types.ts, SessionStats).
endTime / endLevel are null while the session is open. -/
structure SessionStats where
  startTime : ℚ
  endTime : Option ℚ
  startLevel : ℚ
  endLevel : Option ℚ
  avgWattage : ℚ
  maxWattage : ℚ
  avgVoltage : ℚ
  maxAmperage : ℚ
  totalEnergyWh : ℚ
deriving DecidableEq

/-- The lastUpdateRef payload (src/App.tsx line 43): the previous
(time, level) sample point used as the baseline of the next delta. -/
structure SamplePoint where
  time : ℚ
  level : ℚ
deriving DecidableEq

/-- The live metrics triple (src/App.tsx line 32). -/
structure Metrics where
  watts : ℚ
  volts : ℚ
  amps : ℚ
deriving DecidableEq

/-- BATTERY_CAPACITY_WH = 19.25 (src/App.tsx line 20). -/
def BATTERY_CAPACITY_WH : ℚ := 1925 / 100

/-- MAX_STORED_SESSIONS = 5 (src/App.tsx line 22). -/
def MAX_STORED_SESSIONS : ℕ := 5

/-- Result of estimateElectricalProperties. -/
structure ElectricalProps where
  volts : ℚ
  amps : ℚ
deriving DecidableEq

/-- estimateElectricalProperties (src/App.tsx lines 99-108).
r is the value of the Math.random() call, so the jitter is
(r - 1/2) * 0.1.  The let-cascade `volts = 5; if >25 → 12 else if >12 → 9
else if >0 → 5` is written as a nested conditional with default 5. -/
def estimateElectricalProperties (watts r : ℚ) : ElectricalProps :=
  let volts : ℚ := if watts > 25 then 12 else if watts > 12 then 9 else 5
  let jitter : ℚ := (r - 1 / 2) * (1 / 10)
  let stableVolts : ℚ := volts + (if watts > 0 then jitter else 0)
  let amps : ℚ := if watts > 0 then watts / stableVolts else 0
  ⟨stableVolts, amps⟩

/-- The wattage derivation of src/App.tsx lines 128-133, packaged with the
signature used by the specification: level delta times capacity divided by
the elapsed time converted from milliseconds to hours, clamped to [0, 120]. -/
def estimateWattage (prevLevel prevTime currLevel currTime capacity : ℚ) : ℚ :=
  let deltaLevel : ℚ := currLevel - prevLevel
  let deltaTimeHours : ℚ := (currTime - prevTime) / (1000 * 60 * 60)
  min (max (deltaLevel * capacity / deltaTimeHours) 0) 120

/-- The fresh session opened on the idle → charging edge
(src/App.tsx lines 113-123). -/
def newSession (now level : ℚ) : SessionStats :=
  { startTime := now
    endTime := none
    startLevel := level
    endLevel := none
    avgWattage := 0
    maxWattage := 0
    avgVoltage := 0
    maxAmperage := 0
    totalEnergyWh := 0 }

/-- Closing a session on the charging → idle edge (src/App.tsx line 167). -/
def closeSession (s : SessionStats) (now level : ℚ) : SessionStats :=
  { s with endTime := some now, endLevel := some level }

/-- Lines 112-124 of src/App.tsx: the session in force after the opening
check - keep the current session when it exists and is still open,
otherwise open a fresh one. -/
def sessionAfterOpen (cur : Option SessionStats) (now level : ℚ) : Option SessionStats :=
  match cur with
  | none => some (newSession now level)
  | some s => if s.endTime = none then some s else some (newSession now level)

/-- The aggregate fold applied to the open session for one accepted sample
(src/App.tsx lines 146-159, the setSession functional update). -/
def foldSample (prev : SessionStats) (cleanWattage volts amps : ℚ) : SessionStats :=
  { prev with
    maxWattage := max prev.maxWattage cleanWattage
    avgWattage := if prev.avgWattage = 0 then cleanWattage
                  else (prev.avgWattage + cleanWattage) / 2
    avgVoltage := if prev.avgVoltage = 0 then volts
                  else (prev.avgVoltage + volts) / 2
    maxAmperage := max prev.maxAmperage amps }

/-- The tracker state handled by the effect of src/App.tsx lines 110-175:
live metrics, telemetry history, current session, stored past sessions,
the last sample point, and the insight display pair
(aiInsight / isLoadingInsight, lines 39-40). -/
structure AppState where
  metrics : Metrics
  history : List ChargingLog
  session : Option SessionStats
  pastSessions : List SessionStats
  lastUpdate : Option SamplePoint
  aiInsight : String
  isLoadingInsight : Bool
deriving DecidableEq

/-- The initial state (src/App.tsx lines 32-43, with an absent persisted
session list read back as empty). -/
def initState : AppState :=
  { metrics := ⟨0, 0, 0⟩
    history := []
    session := none
    pastSessions := []
    lastUpdate := none
    aiInsight := ""
    isLoadingInsight := false }

/-- One run of the effect of src/App.tsx lines 110-175 for a delivered
(isCharging, level) pair, at clock value now, with Math.random() = r.

* lines 112-124: open a fresh session when there is none or the current
  one is already closed;
* lines 126-161: when a previous sample point exists, the level changed
  and the elapsed time is positive, derive the clamped wattage, decompose
  it, publish metrics, append the history entry (keeping the last 49 old
  entries, `prev.slice(-49)`), and fold the sample into the session;
  update the last sample point whenever the level changed;
* lines 165-173: on the not-charging side, close an open session, push it
  on the stored list truncated to MAX_STORED_SESSIONS, start the insight
  request (which sets isLoadingInsight synchronously), zero the metrics
  and clear the last sample point. -/
def step (st : AppState) (isCharging : Bool) (level now r : ℚ) : AppState :=
  if isCharging then
    let session1 : Option SessionStats := sessionAfterOpen st.session now level
    match st.lastUpdate with
    | none =>
        { st with session := session1, lastUpdate := some ⟨now, level⟩ }
    | some p =>
        if p.level = level then
          { st with session := session1 }
        else
          let deltaLevel : ℚ := level - p.level
          let deltaTimeHours : ℚ := (now - p.time) / (1000 * 60 * 60)
          if 0 < deltaTimeHours then
            let wattage : ℚ := deltaLevel * BATTERY_CAPACITY_WH / deltaTimeHours
            let cleanWattage : ℚ := min (max wattage 0) 120
            let ep : ElectricalProps := estimateElectricalProperties cleanWattage r
            { st with
              metrics := ⟨cleanWattage, ep.volts, ep.amps⟩
              history := st.history.drop (st.history.length - 49)
                           ++ [⟨now, level * 100, cleanWattage, ep.volts, ep.amps,
                                Status.charging⟩]
              session := session1.map (fun s => foldSample s cleanWattage ep.volts ep.amps)
              lastUpdate := some ⟨now, level⟩ }
          else
            { st with session := session1, lastUpdate := some ⟨now, level⟩ }
  else
    match st.session with
    | some s =>
        if s.endTime = none then
          let finalSession : SessionStats := closeSession s now level
          { st with
            metrics := ⟨0, 0, 0⟩
            session := some finalSession
            pastSessions := (finalSession :: st.pastSessions).take MAX_STORED_SESSIONS
            isLoadingInsight := true
            lastUpdate := none }
        else
          { st with metrics := ⟨0, 0, 0⟩, lastUpdate := none }
    | none => { st with metrics := ⟨0, 0, 0⟩, lastUpdate := none }

/-- One delivered battery event: the charging flag, the fractional level,
the clock value at delivery, and the Math.random() draw of that run. -/
structure Event where
  charging : Bool
  level : ℚ
  now : ℚ
  r : ℚ
deriving DecidableEq

/-- step applied to an Event record. -/
def stepE (st : AppState) (e : Event) : AppState :=
  step st e.charging e.level e.now e.r

/-- Folding a whole event sequence through the tracker. -/
def run (st : AppState) : List Event → AppState
  | [] => st
  | e :: es => run (stepE st e) es

/-- getChargingInsights (services/geminiService.ts): the external
generateContent call is modelled by its outcome; the try/catch returns the
response text on success and the fixed fallback string on any failure. -/
def getChargingInsights (callResult : Except String (Option String)) : Option String :=
  match callResult with
  | .ok t => t
  | .error _ => some "Unable to generate AI insights at this moment."

/-- Resolution of the fire-and-forget insight request
(src/App.tsx lines 186-188): only the insight text and the loading flag
change; `insight || ''` is the getD "". -/
def deliverInsight (st : AppState) (callResult : Except String (Option String)) : AppState :=
  { st with
    aiInsight := (getChargingInsights callResult).getD ""
    isLoadingInsight := false }

/-- The last n entries of a list - the semantics of JavaScript slice(-n)
and the shape of a FIFO-capped buffer. -/
def lastN {α : Type _} (n : ℕ) (l : List α) : List α :=
  l.drop (l.length - n)

/-- Ghost observer: the telemetry sample that one event delivery appends,
if any - the guards mirror the emission conditions of step
(charging, a previous sample point, a level change, positive elapsed time). -/
def emittedEntry (st : AppState) (e : Event) : Option ChargingLog :=
  if e.charging then
    match st.lastUpdate with
    | none => none
    | some p =>
      if p.level = e.level then none
      else
        let deltaTimeHours : ℚ := (e.now - p.time) / (1000 * 60 * 60)
        if 0 < deltaTimeHours then
          let cleanWattage : ℚ :=
            min (max ((e.level - p.level) * BATTERY_CAPACITY_WH / deltaTimeHours) 0) 120
          let ep : ElectricalProps := estimateElectricalProperties cleanWattage e.r
          some ⟨e.now, e.level * 100, cleanWattage, ep.volts, ep.amps, Status.charging⟩
        else none
  else none

/-- Ghost observer: every telemetry sample an event sequence appends,
in chronological order. -/
def emittedEntries (st : AppState) : List Event → List ChargingLog
  | [] => []
  | e :: es => (emittedEntry st e).toList ++ emittedEntries (stepE st e) es

/-- Ghost observer: the session an event delivery closes, if any. -/
def closedBy (st : AppState) (e : Event) : Option SessionStats :=
  if e.charging then none
  else
    match st.session with
    | none => none
    | some s => if s.endTime = none then some (closeSession s e.now e.level) else none

/-- Ghost observer: every session an event sequence closes,
most-recent-first (sessions closed by later events come first). -/
def closedSessionsFrom (st : AppState) : List Event → List SessionStats
  | [] => []
  | e :: es => closedSessionsFrom (stepE st e) es ++ (closedBy st e).toList

/-- State invariant used for the time-ascending history property: every
history timestamp is at most T, the last sample point (when present) is at
least every history timestamp and at most T, and the history timestamps
are strictly increasing. -/
def InvT (st : AppState) (T : ℚ) : Prop :=
  (∀ x ∈ st.history, x.timestamp ≤ T) ∧
  (∀ p, st.lastUpdate = some p → (∀ x ∈ st.history, x.timestamp ≤ p.time) ∧ p.time ≤ T) ∧
  List.Pairwise (fun a b => a < b) (st.history.map ChargingLog.timestamp)

/-- A uniform charging trace: n events starting at index i, with level i
and clock 3600000 * i, so every event after the first yields an accepted
sample one hour after its predecessor. -/
def uniTrace : ℕ → ℕ → List Event
  | _, 0 => []
  | i, n + 1 => ⟨true, (i : ℚ), 3600000 * (i : ℚ), 1 / 2⟩ :: uniTrace (i + 1) n

/-- Seven plug-unplug cycles with all levels and clocks at zero: each pair
opens and then closes one session. -/
def sevenCycles : List Event :=
  (List.range 7).flatMap fun _ => [⟨true, 0, 0, 0⟩, ⟨false, 0, 0, 0⟩]

/-- A charging trace whose 60 events after the first each yield an
accepted sample: the C6 instantiation trace. -/
def c6Trace : List Event := ⟨true, 0, 0, 1/2⟩ :: uniTrace 1 60

lemma step_false_open {st : AppState} {s : SessionStats} (level now r : ℚ)
    (hs : st.session = some s) (he : s.endTime = none) :
    step st false level now r =
      { st with
        metrics := ⟨0, 0, 0⟩
        session := some (closeSession s now level)
        pastSessions := (closeSession s now level :: st.pastSessions).take MAX_STORED_SESSIONS
        isLoadingInsight := true
        lastUpdate := none } := by
  simp [step, hs, he]

lemma step_false_closed {st : AppState} {s : SessionStats} (level now r t : ℚ)
    (hs : st.session = some s) (he : s.endTime = some t) :
    step st false level now r = { st with metrics := ⟨0, 0, 0⟩, lastUpdate := none } := by
  simp [step, hs, he]

lemma step_false_nosession {st : AppState} (level now r : ℚ) (hs : st.session = none) :
    step st false level now r = { st with metrics := ⟨0, 0, 0⟩, lastUpdate := none } := by
  simp [step, hs]

lemma step_true_nolast {st : AppState} (level now r : ℚ) (hu : st.lastUpdate = none) :
    step st true level now r =
      { st with session := sessionAfterOpen st.session now level
                lastUpdate := some ⟨now, level⟩ } := by
  simp [step, hu]

lemma step_true_samelevel {st : AppState} {p : SamplePoint} (level now r : ℚ)
    (hu : st.lastUpdate = some p) (hl : p.level = level) :
    step st true level now r =
      { st with session := sessionAfterOpen st.session now level } := by
  simp [step, hu, hl]

lemma step_true_stale {st : AppState} {p : SamplePoint} (level now r : ℚ)
    (hu : st.lastUpdate = some p) (hl : p.level ≠ level)
    (ht : ¬ 0 < (now - p.time) / (1000 * 60 * 60)) :
    step st true level now r =
      { st with session := sessionAfterOpen st.session now level
                lastUpdate := some ⟨now, level⟩ } := by
  rw [step]
  simp only [hu, if_neg hl, if_neg ht]
  exact if_pos trivial

lemma step_true_emit {st : AppState} {p : SamplePoint} (level now r : ℚ)
    (hu : st.lastUpdate = some p) (hl : p.level ≠ level)
    (ht : 0 < (now - p.time) / (1000 * 60 * 60)) :
    step st true level now r =
      { st with
        metrics := ⟨estimateWattage p.level p.time level now BATTERY_CAPACITY_WH,
          (estimateElectricalProperties
            (estimateWattage p.level p.time level now BATTERY_CAPACITY_WH) r).volts,
          (estimateElectricalProperties
            (estimateWattage p.level p.time level now BATTERY_CAPACITY_WH) r).amps⟩
        history := st.history.drop (st.history.length - 49)
          ++ [⟨now, level * 100,
               estimateWattage p.level p.time level now BATTERY_CAPACITY_WH,
               (estimateElectricalProperties
                 (estimateWattage p.level p.time level now BATTERY_CAPACITY_WH) r).volts,
               (estimateElectricalProperties
                 (estimateWattage p.level p.time level now BATTERY_CAPACITY_WH) r).amps,
               Status.charging⟩]
        session := (sessionAfterOpen st.session now level).map
          (fun s => foldSample s
            (estimateWattage p.level p.time level now BATTERY_CAPACITY_WH)
            (estimateElectricalProperties
              (estimateWattage p.level p.time level now BATTERY_CAPACITY_WH) r).volts
            (estimateElectricalProperties
              (estimateWattage p.level p.time level now BATTERY_CAPACITY_WH) r).amps)
        lastUpdate := some ⟨now, level⟩ } := by
  rw [step]
  simp only [hu, if_neg hl, if_pos ht, estimateWattage]
  exact if_pos trivial

lemma lastN_length_le {α : Type _} (n : ℕ) (l : List α) : (lastN n l).length ≤ n := by
  simp [lastN]; omega

lemma lastN_of_le {α : Type _} {n : ℕ} {l : List α} (h : l.length ≤ n) : lastN n l = l := by
  simp [lastN, Nat.sub_eq_zero_of_le h]

lemma lastN_concat {α : Type _} (l : List α) (a : α) :
    lastN 50 (l ++ [a]) = l.drop (l.length - 49) ++ [a] := by
  simp only [lastN, List.length_append, List.length_cons, List.length_nil]
  rw [List.drop_append_eq_append_drop]
  have h1 : l.length + (0 + 1) - 50 - l.length = 0 := by omega
  have h2 : l.length + (0 + 1) - 50 = l.length - 49 := by omega
  rw [h1, h2]
  rfl

lemma lastN_append_lastN {α : Type _} (n : ℕ) (A B : List α) :
    lastN n (lastN n A ++ B) = lastN n (A ++ B) := by
  unfold lastN
  rw [List.drop_append_eq_append_drop, List.drop_append_eq_append_drop, List.drop_drop]
  have hl : (A.drop (A.length - n)).length = A.length - (A.length - n) := by
    simp
  rw [List.length_append, List.length_append, hl]
  congr 2 <;> omega

lemma take_append_take {α : Type _} (n : ℕ) (X Y : List α) :
    (X ++ Y.take n).take n = (X ++ Y).take n := by
  rw [List.take_append_eq_append_take, List.take_append_eq_append_take, List.take_take]
  rw [inf_eq_left.mpr (Nat.sub_le n X.length)]

lemma stepE_history (st : AppState) (e : Event) (h : st.history.length ≤ 50) :
    (stepE st e).history = lastN 50 (st.history ++ (emittedEntry st e).toList) := by
  rcases e with ⟨c, level, now, r⟩
  cases c
  · have hist_eq : (stepE st ⟨false, level, now, r⟩).history = st.history := by
      unfold stepE
      rcases hs : st.session with _ | s
      · rw [step_false_nosession level now r hs]
      · rcases he : s.endTime with _ | t
        · rw [step_false_open level now r hs he]
        · rw [step_false_closed level now r t hs he]
    rw [hist_eq]
    simp [emittedEntry, lastN_of_le h]
  · rcases hu : st.lastUpdate with _ | p
    · rw [stepE, step_true_nolast level now r hu]
      simp [emittedEntry, hu, lastN_of_le h]
    · by_cases hl : p.level = level
      · rw [stepE, step_true_samelevel level now r hu hl]
        simp [emittedEntry, hu, hl, lastN_of_le h]
      · by_cases ht : 0 < (now - p.time) / (1000 * 60 * 60)
        · rw [stepE, step_true_emit level now r hu hl ht]
          simp only [emittedEntry, hu, if_neg hl, if_pos ht, if_pos trivial,
            Option.toList_some, estimateWattage]
          rw [lastN_concat]
        · rw [stepE, step_true_stale level now r hu hl ht]
          simp [emittedEntry, hu, hl, ht, lastN_of_le h]

lemma run_cons (st : AppState) (e : Event) (es : List Event) :
    run st (e :: es) = run (stepE st e) es := rfl

lemma run_history (es : List Event) : ∀ st : AppState, st.history.length ≤ 50 →
    (run st es).history = lastN 50 (st.history ++ emittedEntries st es) := by
  induction es with
  | nil => intro st h; simp [run, emittedEntries, lastN_of_le h]
  | cons e es ih =>
    intro st h
    have h' : (stepE st e).history.length ≤ 50 := by
      rw [stepE_history st e h]; exact lastN_length_le _ _
    rw [run_cons, ih (stepE st e) h', stepE_history st e h, emittedEntries,
      lastN_append_lastN, List.append_assoc]

lemma run_history_init (es : List Event) :
    (run initState es).history = lastN 50 (emittedEntries initState es) := by
  have := run_history es initState (by simp [initState])
  simpa [initState] using this

lemma step_false_frame (st : AppState) (level now r : ℚ) :
    (step st false level now r).history = st.history ∧
    (step st false level now r).lastUpdate = none ∧
    (step st false level now r).metrics = ⟨0, 0, 0⟩ ∧
    (step st false level now r).aiInsight = st.aiInsight := by
  rcases hs : st.session with _ | s
  · rw [step_false_nosession level now r hs]; exact ⟨rfl, rfl, rfl, rfl⟩
  · rcases he : s.endTime with _ | t
    · rw [step_false_open level now r hs he]; exact ⟨rfl, rfl, rfl, rfl⟩
    · rw [step_false_closed level now r t hs he]; exact ⟨rfl, rfl, rfl, rfl⟩

lemma take_all_of_len_le {α : Type _} {l : List α} {n : ℕ} (h : l.length ≤ n) :
    l.take n = l :=
  List.take_of_length_le h

lemma stepE_pastSessions (st : AppState) (e : Event) (h : st.pastSessions.length ≤ 5) :
    (stepE st e).pastSessions = ((closedBy st e).toList ++ st.pastSessions).take 5 := by
  rcases e with ⟨c, level, now, r⟩
  cases c
  · rcases hs : st.session with _ | s
    · rw [stepE, step_false_nosession level now r hs]
      simp [closedBy, hs, take_all_of_len_le h]
    · rcases he : s.endTime with _ | t
      · rw [stepE, step_false_open level now r hs he]
        simp [closedBy, hs, he, MAX_STORED_SESSIONS]
      · rw [stepE, step_false_closed level now r t hs he]
        simp [closedBy, hs, he, take_all_of_len_le h]
  · have hcb : closedBy st ⟨true, level, now, r⟩ = none := by simp [closedBy]
    rw [hcb]
    simp only [Option.toList_none, List.nil_append, take_all_of_len_le h]
    rcases hu : st.lastUpdate with _ | p
    · rw [stepE, step_true_nolast level now r hu]
    · by_cases hl : p.level = level
      · rw [stepE, step_true_samelevel level now r hu hl]
      · by_cases ht : 0 < (now - p.time) / (1000 * 60 * 60)
        · rw [stepE, step_true_emit level now r hu hl ht]
        · rw [stepE, step_true_stale level now r hu hl ht]

lemma run_pastSessions (es : List Event) : ∀ st : AppState, st.pastSessions.length ≤ 5 →
    (run st es).pastSessions = (closedSessionsFrom st es ++ st.pastSessions).take 5 := by
  induction es with
  | nil => intro st h; simp [run, closedSessionsFrom, take_all_of_len_le h]
  | cons e es ih =>
    intro st h
    have h' : (stepE st e).pastSessions.length ≤ 5 := by
      rw [stepE_pastSessions st e h]
      exact le_trans (List.length_take_le _ _) (le_refl 5)
    rw [run_cons, ih (stepE st e) h', stepE_pastSessions st e h, closedSessionsFrom,
      take_append_take, List.append_assoc]

lemma run_pastSessions_init (es : List Event) :
    (run initState es).pastSessions = (closedSessionsFrom initState es).take 5 := by
  have := run_pastSessions es initState (by simp [initState])
  simpa [initState] using this

lemma closedBy_closed (st : AppState) (e : Event) (x : SessionStats)
    (hx : closedBy st e = some x) : x.endTime ≠ none := by
  rcases e with ⟨c, level, now, r⟩
  cases c
  · rcases hs : st.session with _ | s
    · simp [closedBy, hs] at hx
    · rcases he : s.endTime with _ | t
      · simp only [closedBy, hs, he, if_pos rfl] at hx
        rw [← Option.some_inj.mp hx]
        simp [closeSession]
      · simp [closedBy, hs, he] at hx
  · simp [closedBy] at hx

lemma closedSessionsFrom_closed (es : List Event) : ∀ (st : AppState) (x : SessionStats),
    x ∈ closedSessionsFrom st es → x.endTime ≠ none := by
  induction es with
  | nil => intro st x hx; simp [closedSessionsFrom] at hx
  | cons e es ih =>
    intro st x hx
    rw [closedSessionsFrom] at hx
    rcases List.mem_append.mp hx with h1 | h2
    · exact ih (stepE st e) x h1
    · rcases hcb : closedBy st e with _ | y
      · rw [hcb] at h2; simp at h2
      · rw [hcb] at h2
        simp only [Option.toList_some, List.mem_singleton] at h2
        rw [h2]
        exact closedBy_closed st e y hcb

lemma time_lt_of_elapsed_pos {a b : ℚ} (h : 0 < (b - a) / (1000 * 60 * 60)) : a < b := by
  rcases div_pos_iff.mp h with ⟨ha, _⟩ | ⟨_, hb⟩
  · linarith
  · norm_num at hb

lemma invT_step (st : AppState) (T : ℚ) (e : Event) (h : InvT st T) (hT : T ≤ e.now) :
    InvT (stepE st e) e.now := by
  obtain ⟨h1, h2, h3⟩ := h
  rcases e with ⟨c, level, now, r⟩
  dsimp only at hT ⊢
  cases c
  · have hh : (stepE st ⟨false, level, now, r⟩).history = st.history :=
      (step_false_frame st level now r).1
    have hlu : (stepE st ⟨false, level, now, r⟩).lastUpdate = none :=
      (step_false_frame st level now r).2.1
    refine ⟨?_, ?_, ?_⟩
    · intro x hx
      rw [hh] at hx
      exact le_trans (h1 x hx) hT
    · intro p hp
      rw [hlu] at hp
      exact absurd hp (by simp)
    · rw [hh]
      exact h3
  · rcases hu : st.lastUpdate with _ | p
    · rw [stepE, step_true_nolast level now r hu]
      refine ⟨?_, ?_, ?_⟩
      · intro x hx
        exact le_trans (h1 x hx) hT
      · intro q hq
        simp only [Option.some_inj] at hq
        refine ⟨fun x hx => ?_, ?_⟩
        · rw [← hq]
          exact le_trans (h1 x hx) hT
        · rw [← hq]
      · exact h3
    · by_cases hl : p.level = level
      · rw [stepE, step_true_samelevel level now r hu hl]
        refine ⟨?_, ?_, ?_⟩
        · intro x hx
          exact le_trans (h1 x hx) hT
        · intro q hq
          simp only at hq
          rw [hu, Option.some_inj] at hq
          refine ⟨fun x hx => ?_, ?_⟩
          · rw [← hq]
            exact (h2 p hu).1 x hx
          · rw [← hq]
            exact le_trans (h2 p hu).2 hT
        · exact h3
      · by_cases ht : 0 < (now - p.time) / (1000 * 60 * 60)
        · have hpt : p.time < now := time_lt_of_elapsed_pos ht
          rw [stepE, step_true_emit level now r hu hl ht]
          refine ⟨?_, ?_, ?_⟩
          · intro x hx
            simp only [List.mem_append, List.mem_singleton] at hx
            rcases hx with hx | hx
            · exact le_trans (h1 x (List.drop_subset _ _ hx)) hT
            · rw [hx]
          · intro q hq
            simp only [Option.some_inj] at hq
            refine ⟨fun x hx => ?_, by rw [← hq]⟩
            rw [← hq]
            simp only [List.mem_append, List.mem_singleton] at hx
            rcases hx with hx | hx
            · exact le_trans (h1 x (List.drop_subset _ _ hx)) hT
            · rw [hx]
          · simp only [List.map_append, List.map_cons, List.map_nil]
            rw [List.pairwise_append]
            refine ⟨?_, ?_, ?_⟩
            · exact List.Pairwise.sublist
                ((List.drop_sublist _ _).map ChargingLog.timestamp) h3
            · exact List.pairwise_singleton _ _
            · intro a ha b hb
              simp only [List.mem_singleton] at hb
              rcases List.mem_map.mp ha with ⟨x, hx, hxa⟩
              rw [hb, ← hxa]
              exact lt_of_le_of_lt ((h2 p hu).1 x (List.drop_subset _ _ hx)) hpt
        · rw [stepE, step_true_stale level now r hu hl ht]
          refine ⟨?_, ?_, ?_⟩
          · intro x hx
            exact le_trans (h1 x hx) hT
          · intro q hq
            simp only [Option.some_inj] at hq
            refine ⟨fun x hx => ?_, by rw [← hq]⟩
            rw [← hq]
            exact le_trans (h1 x hx) hT
          · exact h3

lemma run_pairwise (es : List Event) : ∀ (st : AppState) (T : ℚ), InvT st T →
    (∀ e ∈ es, T ≤ e.now) → (es.map Event.now).Pairwise (fun a b => a ≤ b) →
    List.Pairwise (fun a b => a < b) ((run st es).history.map ChargingLog.timestamp) := by
  induction es with
  | nil => intro st T h _ _; exact h.2.2
  | cons e es ih =>
    intro st T h hTe hp
    rw [List.map_cons, List.pairwise_cons] at hp
    rw [run_cons]
    refine ih (stepE st e) e.now (invT_step st T e h (hTe e (List.mem_cons_self e es)))
      (fun b hb => hp.1 b.now (List.mem_map_of_mem Event.now hb)) hp.2

lemma run_pairwise_init (es : List Event)
    (hp : (es.map Event.now).Pairwise (fun a b => a ≤ b)) :
    List.Pairwise (fun a b => a < b) ((run initState es).history.map ChargingLog.timestamp) := by
  cases es with
  | nil => simp [run, initState]
  | cons e es =>
    refine run_pairwise (e :: es) initState e.now ⟨?_, ?_, ?_⟩ ?_ hp
    · intro x hx; simp [initState] at hx
    · intro p hpp; simp [initState] at hpp
    · simp [initState]
    · intro b hb
      rcases List.mem_cons.mp hb with hb | hb
      · rw [hb]
      · rw [List.map_cons, List.pairwise_cons] at hp
        exact hp.1 b.now (List.mem_map_of_mem Event.now hb)

lemma emittedEntry_props (st : AppState) (e : Event) (x : ChargingLog)
    (hx : emittedEntry st e = some x) :
    x.status = Status.charging ∧ 0 ≤ x.wattage ∧ x.wattage ≤ 120 := by
  rcases e with ⟨c, level, now, r⟩
  cases c
  · simp [emittedEntry] at hx
  · rcases hu : st.lastUpdate with _ | p
    · simp [emittedEntry, hu] at hx
    · by_cases hl : p.level = level
      · simp [emittedEntry, hu, hl] at hx
      · by_cases ht : 0 < (now - p.time) / (1000 * 60 * 60)
        · simp only [emittedEntry, hu, if_neg hl, if_pos ht, if_pos trivial,
            Option.some_inj] at hx
          rw [← hx]
          refine ⟨rfl, ?_, ?_⟩
          · exact le_min (le_max_right _ _) (by norm_num)
          · exact min_le_right _ _
        · simp [emittedEntry, hu, hl, ht] at hx

lemma emittedEntries_props (es : List Event) : ∀ (st : AppState) (x : ChargingLog),
    x ∈ emittedEntries st es →
    x.status = Status.charging ∧ 0 ≤ x.wattage ∧ x.wattage ≤ 120 := by
  induction es with
  | nil => intro st x hx; simp [emittedEntries] at hx
  | cons e es ih =>
    intro st x hx
    rw [emittedEntries] at hx
    rcases List.mem_append.mp hx with h1 | h2
    · rcases hee : emittedEntry st e with _ | y
      · rw [hee] at h1; simp at h1
      · rw [hee] at h1
        simp only [Option.toList_some, List.mem_singleton] at h1
        rw [h1]
        exact emittedEntry_props st e y hee
    · exact ih (stepE st e) x h2

lemma uniTrace_emitted (n : ℕ) : ∀ (i : ℕ) (st : AppState) (p : SamplePoint),
    st.lastUpdate = some p → p.level < (i : ℚ) → p.time < 3600000 * (i : ℚ) →
    (emittedEntries st (uniTrace i n)).length = n := by
  induction n with
  | zero => intro i st p _ _ _; simp [uniTrace, emittedEntries]
  | succ n ih =>
    intro i st p hu hlevel htime
    rw [uniTrace, emittedEntries]
    have hl : ¬ p.level = (i : ℚ) := ne_of_lt hlevel
    have ht : 0 < (3600000 * (i : ℚ) - p.time) / (1000 * 60 * 60) := by
      apply div_pos
      · linarith
      · norm_num
    have hu' : (stepE st ⟨true, (i : ℚ), 3600000 * (i : ℚ), 1 / 2⟩).lastUpdate
        = some ⟨3600000 * (i : ℚ), (i : ℚ)⟩ := by
      rw [stepE, step_true_emit ((i : ℚ)) (3600000 * (i : ℚ)) (1 / 2) hu hl ht]
    have hlen1 : (emittedEntry st ⟨true, (i : ℚ), 3600000 * (i : ℚ), 1 / 2⟩).toList.length
        = 1 := by
      simp only [emittedEntry, hu, if_neg hl, if_pos ht, if_pos trivial, Option.toList_some]
      rfl
    rw [List.length_append, hlen1,
      ih (i + 1) (stepE st ⟨true, (i : ℚ), 3600000 * (i : ℚ), 1 / 2⟩)
        ⟨3600000 * (i : ℚ), (i : ℚ)⟩ hu' (by push_cast; linarith) (by push_cast; nlinarith)]
    omega

lemma uniTrace_mem_now (n : ℕ) : ∀ (i : ℕ) (e : Event), e ∈ uniTrace i n →
    3600000 * (i : ℚ) ≤ e.now := by
  induction n with
  | zero => intro i e he; simp [uniTrace] at he
  | succ n ih =>
    intro i e he
    rw [uniTrace] at he
    rcases List.mem_cons.mp he with h | h
    · rw [h]
    · have h1 := ih (i + 1) e h
      have h2 : ((i : ℚ)) ≤ ((i + 1 : ℕ) : ℚ) := by push_cast; linarith
      nlinarith

lemma uniTrace_pairwise (n : ℕ) : ∀ i : ℕ,
    ((uniTrace i n).map Event.now).Pairwise (fun a b => a ≤ b) := by
  induction n with
  | zero => intro i; simp [uniTrace]
  | succ n ih =>
    intro i
    rw [uniTrace, List.map_cons, List.pairwise_cons]
    refine ⟨?_, ih (i + 1)⟩
    intro b hb
    rcases List.mem_map.mp hb with ⟨e, he, hbe⟩
    rw [← hbe]
    have h1 := uniTrace_mem_now n (i + 1) e he
    have h2 : ((i : ℚ)) ≤ ((i + 1 : ℕ) : ℚ) := by push_cast; linarith
    dsimp only
    nlinarith

lemma c6Trace_emitted : (emittedEntries initState c6Trace).length = 60 := by
  rw [c6Trace, emittedEntries]
  have h0 : emittedEntry initState ⟨true, 0, 0, 1 / 2⟩ = none := by
    simp [emittedEntry, initState]
  have hu : (stepE initState ⟨true, 0, 0, 1 / 2⟩).lastUpdate = some ⟨0, 0⟩ := by
    rw [stepE, step_true_nolast 0 0 (1 / 2) (by simp [initState])]
  rw [h0]
  simp only [Option.toList_none, List.nil_append]
  rw [uniTrace_emitted 60 1 _ ⟨0, 0⟩ hu (by norm_num) (by norm_num)]

lemma c6Trace_pairwise : (c6Trace.map Event.now).Pairwise (fun a b => a ≤ b) := by
  rw [c6Trace, List.map_cons, List.pairwise_cons]
  refine ⟨?_, uniTrace_pairwise 60 1⟩
  intro b hb
  rcases List.mem_map.mp hb with ⟨e, he, hbe⟩
  rw [← hbe]
  have h1 := uniTrace_mem_now 60 1 e he
  dsimp only
  nlinarith

/-- Claim C2: at most one session is open at any point - every session in
the stored history is closed, so only the current one can be open; the
charging-becomes-false edge closes the open session exactly once, stamping
endTime with the current time and endLevel with the current level, placing
the closed session at index 0 of the session history and zeroing the live
metrics; a further not-charging delivery leaves the session and the stored
history untouched. -/
theorem C2_session_lifecycle :
    (∀ (st : AppState) (s : SessionStats) (level now r : ℚ),
       st.session = some s → s.endTime = none →
       (step st false level now r).session
         = some { s with endTime := some now, endLevel := some level } ∧
       (step st false level now r).pastSessions
         = { s with endTime := some now, endLevel := some level }
             :: st.pastSessions.take 4 ∧
       (step st false level now r).metrics = ⟨0, 0, 0⟩ ∧
       (step st false level now r).lastUpdate = none) ∧
    (∀ (st : AppState) (s : SessionStats) (level now r t : ℚ),
       st.session = some s → s.endTime = some t →
       (step st false level now r).session = st.session ∧
       (step st false level now r).pastSessions = st.pastSessions) ∧
    (∀ (es : List Event) (x : SessionStats),
       x ∈ (run initState es).pastSessions → x.endTime ≠ none) := by
  refine ⟨?_, ?_, ?_⟩
  · intro st s level now r hs he
    rw [step_false_open level now r hs he]
    exact ⟨rfl, rfl, rfl, rfl⟩
  · intro st s level now r t hs he
    rw [step_false_closed level now r t hs he]
    exact ⟨rfl, rfl⟩
  · intro es x hx
    rw [run_pastSessions_init] at hx
    exact closedSessionsFrom_closed es initState x (List.take_subset _ _ hx)

/-- Witness instantiating claim C2 at concrete inputs. -/
theorem C2_witness :
    (step { initState with session := some (newSession 0 (1/2)) } false (3/5) 9000 0).session
      = some { newSession 0 (1/2) with endTime := some 9000, endLevel := some (3/5) } ∧
    (step { initState with session := some (newSession 0 (1/2)) } false (3/5) 9000 0).pastSessions
      = { newSession 0 (1/2) with endTime := some 9000, endLevel := some (3/5) }
          :: ({ initState with session := some (newSession 0 (1/2)) } : AppState).pastSessions.take 4 ∧
    (step { initState with session := some (newSession 0 (1/2)) } false (3/5) 9000 0).metrics
      = ⟨0, 0, 0⟩ ∧
    (step { initState with session := some (newSession 0 (1/2)) } false (3/5) 9000 0).lastUpdate
      = none :=
  C2_session_lifecycle.1 _ (newSession 0 (1/2)) (3/5) 9000 0 rfl rfl

/-- Claim C6: the telemetry history always holds at most 50 entries and
always equals the 50 most recent accepted samples in order (FIFO
eviction); whenever the delivered clock values are nondecreasing the
stored timestamps are strictly ascending; after 60 accepted samples the
history length is exactly 50 and the content is exactly the 50 most
recent samples. -/
theorem C6_history_buffer :
    (∀ es : List Event, (run initState es).history.length ≤ 50) ∧
    (∀ es : List Event,
       (run initState es).history = lastN 50 (emittedEntries initState es)) ∧
    (∀ es : List Event, (es.map Event.now).Pairwise (fun a b => a ≤ b) →
       List.Pairwise (fun a b => a < b)
         ((run initState es).history.map ChargingLog.timestamp)) ∧
    (∀ es : List Event, (emittedEntries initState es).length = 60 →
       (run initState es).history.length = 50 ∧
       (run initState es).history = lastN 50 (emittedEntries initState es)) := by
  refine ⟨?_, ?_, ?_, ?_⟩
  · intro es
    rw [run_history_init]
    exact lastN_length_le _ _
  · exact run_history_init
  · exact run_pairwise_init
  · intro es h
    refine ⟨?_, run_history_init es⟩
    rw [run_history_init]
    simp [lastN, h]

/-- Witness instantiating claim C6 at concrete inputs. -/
theorem C6_witness :
    (run initState c6Trace).history.length ≤ 50 ∧
    List.Pairwise (fun a b => a < b)
      ((run initState c6Trace).history.map ChargingLog.timestamp) ∧
    (run initState c6Trace).history.length = 50 :=
  ⟨C6_history_buffer.1 c6Trace,
   C6_history_buffer.2.2.1 c6Trace c6Trace_pairwise,
   (C6_history_buffer.2.2.2 c6Trace c6Trace_emitted).1⟩

/-- Claim C7: the session history always holds at most 5 closed
sessions, always equals the most-recent-first prefix of all sessions ever
closed, and after 7 completed sessions exactly the 5 most recent are
retained, most-recent-first. -/
theorem C7_session_history_cap :
    (∀ es : List Event, (run initState es).pastSessions.length ≤ 5) ∧
    (∀ es : List Event,
       (run initState es).pastSessions = (closedSessionsFrom initState es).take 5) ∧
    (∀ es : List Event, (closedSessionsFrom initState es).length = 7 →
       (run initState es).pastSessions = (closedSessionsFrom initState es).take 5 ∧
       (run initState es).pastSessions.length = 5) := by
  refine ⟨?_, ?_, ?_⟩
  · intro es
    rw [run_pastSessions_init]
    exact List.length_take_le _ _
  · exact run_pastSessions_init
  · intro es h
    refine ⟨run_pastSessions_init es, ?_⟩
    rw [run_pastSessions_init]
    simp [List.length_take, h]

/-- Witness instantiating claim C7 at concrete inputs. -/
theorem C7_witness :
    (run initState sevenCycles).pastSessions
      = (closedSessionsFrom initState sevenCycles).take 5 ∧
    (run initState sevenCycles).pastSessions.length = 5 :=
  C7_session_history_cap.2.2 sevenCycles (by decide)

/-- Claim C9: the charging-becomes-false transition leaves the telemetry
history unchanged while clearing the last sample point and zeroing the
live metrics, so samples of a closed session persist into the next
session until evicted by the 50-entry cap. -/
theorem C9_close_preserves_history :
    ∀ (st : AppState) (level now r : ℚ),
      (step st false level now r).history = st.history ∧
      (step st false level now r).lastUpdate = none ∧
      (step st false level now r).metrics = ⟨0, 0, 0⟩ := by
  intro st level now r
  obtain ⟨h1, h2, h3, _⟩ := step_false_frame st level now r
  exact ⟨h1, h2, h3⟩

/-- Claim C10: every entry ever appended to the telemetry history has
status charging - the discharging variant never occurs - and wattage
within the closed interval [0, 120]. -/
theorem C10_history_entry_invariant :
    ∀ (es : List Event) (x : ChargingLog), x ∈ (run initState es).history →
      x.status = Status.charging ∧ 0 ≤ x.wattage ∧ x.wattage ≤ 120 := by
  intro es x hx
  rw [run_history_init] at hx
  exact emittedEntries_props es initState x (List.drop_subset _ _ hx)

/-- Witness instantiating claim C10 at concrete inputs. -/
theorem C10_witness :
    (⟨3600000, 100, 77/4, 9, 77/36, Status.charging⟩ : ChargingLog).status
      = Status.charging ∧
    0 ≤ (⟨3600000, 100, 77/4, 9, 77/36, Status.charging⟩ : ChargingLog).wattage ∧
    (⟨3600000, 100, 77/4, 9, 77/36, Status.charging⟩ : ChargingLog).wattage ≤ 120 :=
  C10_history_entry_invariant [⟨true, 0, 0, 1/2⟩, ⟨true, 1, 3600000, 1/2⟩] _
    (by norm_num [run, stepE, step, initState, sessionAfterOpen, newSession,
      estimateElectricalProperties, foldSample, BATTERY_CAPACITY_WH])

/-- Claim C1: while charging, for every pair of level samples with a prior
sample point, a changed level and positive elapsed hours, the emitted
wattage (published in the metrics and appended to the history) equals
(currLevel - prevLevel) * batteryCapacityWh / elapsedHours clamped to
[0, 120]; with prevLevel 0.50, currLevel 0.51, 60 seconds elapsed and
capacity 19.25 Wh the result is exactly 11.55; a raw value of 500 yields
exactly 120; a negative level delta yields exactly 0. -/
theorem C1_wattage_derivation :
    (∀ (st : AppState) (level now r : ℚ) (p : SamplePoint),
       st.lastUpdate = some p → ¬ p.level = level →
       0 < (now - p.time) / (1000 * 60 * 60) →
       (step st true level now r).metrics.watts
         = estimateWattage p.level p.time level now BATTERY_CAPACITY_WH ∧
       ((step st true level now r).history.getLast?).map ChargingLog.wattage
         = some (estimateWattage p.level p.time level now BATTERY_CAPACITY_WH)) ∧
    (∀ t : ℚ, estimateWattage (1/2) t (51/100) (t + 60000) BATTERY_CAPACITY_WH
       = 1155/100) ∧
    (∀ prevLevel prevTime currLevel currTime capacity : ℚ,
       (currLevel - prevLevel) * capacity / ((currTime - prevTime) / (1000 * 60 * 60)) = 500 →
       estimateWattage prevLevel prevTime currLevel currTime capacity = 120) ∧
    (∀ prevLevel prevTime currLevel currTime : ℚ,
       currLevel < prevLevel → prevTime < currTime →
       estimateWattage prevLevel prevTime currLevel currTime BATTERY_CAPACITY_WH = 0) := by
  refine ⟨?_, ?_, ?_, ?_⟩
  · intro st level now r p hu hl ht
    rw [step_true_emit level now r hu hl ht]
    refine ⟨rfl, ?_⟩
    rw [List.getLast?_concat]
    rfl
  · intro t
    simp only [estimateWattage]
    rw [show (t + 60000 - t : ℚ) = 60000 by ring]
    norm_num [BATTERY_CAPACITY_WH, min_def, max_def]
  · intro prevLevel prevTime currLevel currTime capacity h
    simp only [estimateWattage]
    rw [h]
    norm_num [min_def, max_def]
  · intro prevLevel prevTime currLevel currTime h1 h2
    have hX : (currLevel - prevLevel) * BATTERY_CAPACITY_WH
        / ((currTime - prevTime) / (1000 * 60 * 60)) < 0 := by
      apply div_neg_of_neg_of_pos
      · apply mul_neg_of_neg_of_pos
        · linarith
        · norm_num [BATTERY_CAPACITY_WH]
      · apply div_pos
        · linarith
        · norm_num
    simp only [estimateWattage]
    rw [max_eq_right hX.le, min_eq_left (by norm_num : (0:ℚ) ≤ 120)]

/-- Witness instantiating claim C1 at concrete inputs. -/
theorem C1_witness :
    (step { initState with lastUpdate := some (⟨0, 1/2⟩ : SamplePoint) }
        true (51/100) 60000 (1/2)).metrics.watts
      = estimateWattage (1/2) 0 (51/100) 60000 BATTERY_CAPACITY_WH ∧
    estimateWattage (1/2) 0 (51/100) (0 + 60000) BATTERY_CAPACITY_WH = 1155/100 ∧
    estimateWattage 0 0 1 3600000 500 = 120 ∧
    estimateWattage (1/2) 0 (2/5) 3600000 BATTERY_CAPACITY_WH = 0 :=
  ⟨(C1_wattage_derivation.1 _ (51/100) 60000 (1/2) ⟨0, 1/2⟩ rfl (by norm_num)
      (by norm_num)).1,
   C1_wattage_derivation.2.1 0,
   C1_wattage_derivation.2.2.1 0 0 1 3600000 500 (by norm_num),
   C1_wattage_derivation.2.2.2 (1/2) 0 (2/5) 3600000 (by norm_num) (by norm_num)⟩

/-- Claim C3 (amended): a sample folded while avgWattage = 0 sets
avgWattage to that sample wattage exactly, and a sample folded while
avgWattage is nonzero updates it to (avgWattage + w) / 2 exactly, so for a
first-sample wattage w1 that is nonzero and any second-sample wattage w2
the value after two samples is (w1 + w2) / 2; avgVoltage follows the
identical recurrence on volts. The original claim quantifies over every
first-sample wattage including w1 = 0, where the code instead re-enters
the first-sample branch: see the counterexample. -/
theorem C3_avg_recurrence :
    (∀ (s : SessionStats) (w v a : ℚ), s.avgWattage = 0 →
       (foldSample s w v a).avgWattage = w) ∧
    (∀ (s : SessionStats) (w v a : ℚ), ¬ s.avgWattage = 0 →
       (foldSample s w v a).avgWattage = (s.avgWattage + w) / 2) ∧
    (∀ (now level w1 v1 a1 w2 v2 a2 : ℚ), ¬ w1 = 0 →
       (foldSample (foldSample (newSession now level) w1 v1 a1) w2 v2 a2).avgWattage
         = (w1 + w2) / 2) ∧
    (∀ (s : SessionStats) (w v a : ℚ), s.avgVoltage = 0 →
       (foldSample s w v a).avgVoltage = v) ∧
    (∀ (s : SessionStats) (w v a : ℚ), ¬ s.avgVoltage = 0 →
       (foldSample s w v a).avgVoltage = (s.avgVoltage + v) / 2) := by
  refine ⟨?_, ?_, ?_, ?_, ?_⟩
  · intro s w v a h; simp [foldSample, h]
  · intro s w v a h; simp [foldSample, h]
  · intro now level w1 v1 a1 w2 v2 a2 h
    simp [foldSample, newSession, h]
  · intro s w v a h; simp [foldSample, h]
  · intro s w v a h; simp [foldSample, h]

/-- Counterexample to claim C3 as stated: a clamped negative delta gives
an accepted first sample of wattage 0, after which the next accepted
sample of wattage 77/40 re-enters the first-sample branch, leaving
avgWattage = 77/40 and not (0 + 77/40) / 2. -/
theorem C3_counterexample :
    ((run initState [⟨true, 1/2, 0, 1/2⟩, ⟨true, 2/5, 3600000, 1/2⟩,
        ⟨true, 1/2, 7200000, 1/2⟩]).session.map SessionStats.avgWattage
      = some (77/40)) ∧
    ((emittedEntries initState [⟨true, 1/2, 0, 1/2⟩, ⟨true, 2/5, 3600000, 1/2⟩,
        ⟨true, 1/2, 7200000, 1/2⟩]).map ChargingLog.wattage = [0, 77/40]) ∧
    ¬ ((77 : ℚ)/40 = (0 + 77/40) / 2) := by
  refine ⟨?_, ?_, by norm_num⟩
  · norm_num [run, stepE, step, initState, sessionAfterOpen, newSession, foldSample,
      estimateElectricalProperties, BATTERY_CAPACITY_WH]
  · norm_num [run, stepE, step, emittedEntry, emittedEntries, initState, sessionAfterOpen,
      newSession, foldSample, estimateElectricalProperties, BATTERY_CAPACITY_WH]

/-- Witness instantiating claim C3 at concrete inputs. -/
theorem C3_witness :
    (foldSample (newSession 0 0) (77/40) 5 (77/200)).avgWattage = 77/40 ∧
    (foldSample (foldSample (newSession 0 0) (77/40) 5 (77/200)) (3/2) 9 (1/6)).avgWattage
      = ((foldSample (newSession 0 0) (77/40) 5 (77/200)).avgWattage + 3/2) / 2 ∧
    (foldSample (foldSample (newSession 0 0) (77/40) 5 (77/200)) (3/2) 9 (1/6)).avgWattage
      = (77/40 + 3/2) / 2 ∧
    (foldSample (newSession 0 0) (77/40) 5 (77/200)).avgVoltage = 5 ∧
    (foldSample (foldSample (newSession 0 0) (77/40) 5 (77/200)) (3/2) 9 (1/6)).avgVoltage
      = ((foldSample (newSession 0 0) (77/40) 5 (77/200)).avgVoltage + 9) / 2 :=
  ⟨C3_avg_recurrence.1 _ (77/40) 5 (77/200) rfl,
   C3_avg_recurrence.2.1 _ (3/2) 9 (1/6) (by norm_num [foldSample, newSession]),
   C3_avg_recurrence.2.2.1 0 0 (77/40) 5 (77/200) (3/2) 9 (1/6) (by norm_num),
   C3_avg_recurrence.2.2.2.1 _ (77/40) 5 (77/200) rfl,
   C3_avg_recurrence.2.2.2.2 _ (3/2) 9 (1/6) (by norm_num [foldSample, newSession])⟩

/-- Claim C4: estimateElectricalProperties maps watts = 0 to volts
exactly 5 and amps exactly 0 with no jitter; for watts > 0 the returned
volts lie within plus-minus 0.05 of the nominal tier - 5 for
0 < w <= 12, 9 for 12 < w <= 25 (so 15 W gives volts in [8.95, 9.05]),
12 for w > 25 (so 30 W gives volts in [11.95, 12.05]); and for every
watts > 0 the returned amps times the returned volts equals watts. The
Math.random() draw r ranges over [0, 1). -/
theorem C4_electrical_properties :
    (∀ r : ℚ, estimateElectricalProperties 0 r = ⟨5, 0⟩) ∧
    (∀ w r : ℚ, 0 ≤ r → r < 1 → 0 < w → w ≤ 12 →
       |(estimateElectricalProperties w r).volts - 5| ≤ 1/20) ∧
    (∀ w r : ℚ, 0 ≤ r → r < 1 → 12 < w → w ≤ 25 →
       |(estimateElectricalProperties w r).volts - 9| ≤ 1/20) ∧
    (∀ w r : ℚ, 0 ≤ r → r < 1 → 25 < w →
       |(estimateElectricalProperties w r).volts - 12| ≤ 1/20) ∧
    (∀ w r : ℚ, 0 ≤ r → r < 1 → 0 < w →
       (estimateElectricalProperties w r).amps * (estimateElectricalProperties w r).volts
         = w) := by
  refine ⟨?_, ?_, ?_, ?_, ?_⟩
  · intro r; norm_num [estimateElectricalProperties]
  · intro w r hr0 hr1 hw0 hw12
    simp only [estimateElectricalProperties]
    rw [if_neg (by linarith : ¬ w > 25), if_neg (by linarith : ¬ w > 12), if_pos hw0]
    rw [abs_le]
    constructor <;> nlinarith
  · intro w r hr0 hr1 hw12 hw25
    simp only [estimateElectricalProperties]
    rw [if_neg (by linarith : ¬ w > 25), if_pos (by linarith : w > 12),
      if_pos (by linarith : w > 0)]
    rw [abs_le]
    constructor <;> nlinarith
  · intro w r hr0 hr1 hw25
    simp only [estimateElectricalProperties]
    rw [if_pos (by linarith : w > 25), if_pos (by linarith : w > 0)]
    rw [abs_le]
    constructor <;> nlinarith
  · intro w r hr0 hr1 hw
    simp only [estimateElectricalProperties]
    simp only [if_pos hw]
    have hv : (5 : ℚ) ≤ (if w > 25 then (12:ℚ) else if w > 12 then 9 else 5) := by
      split_ifs <;> norm_num
    have hj : -(1/20 : ℚ) ≤ (r - 1/2) * (1/10) := by nlinarith
    have hsv : (0 : ℚ) < (if w > 25 then (12:ℚ) else if w > 12 then 9 else 5)
        + (r - 1/2) * (1/10) := by linarith
    exact div_mul_cancel₀ w (ne_of_gt hsv)

/-- Witness instantiating claim C4 at concrete inputs. -/
theorem C4_witness :
    estimateElectricalProperties 0 (1/4) = ⟨5, 0⟩ ∧
    |(estimateElectricalProperties 15 (1/4)).volts - 9| ≤ 1/20 ∧
    |(estimateElectricalProperties 30 (1/4)).volts - 12| ≤ 1/20 ∧
    |(estimateElectricalProperties 6 (1/4)).volts - 5| ≤ 1/20 ∧
    (estimateElectricalProperties 15 (1/4)).amps * (estimateElectricalProperties 15 (1/4)).volts
      = 15 :=
  ⟨C4_electrical_properties.1 (1/4),
   C4_electrical_properties.2.2.1 15 (1/4) (by norm_num) (by norm_num) (by norm_num)
     (by norm_num),
   C4_electrical_properties.2.2.2.1 30 (1/4) (by norm_num) (by norm_num) (by norm_num),
   C4_electrical_properties.2.1 6 (1/4) (by norm_num) (by norm_num) (by norm_num)
     (by norm_num),
   C4_electrical_properties.2.2.2.2 15 (1/4) (by norm_num) (by norm_num) (by norm_num)⟩

/-- Claim C5: while charging with an open session, a duplicate level
delivery or a non-positive elapsed time since the last sample point
reaches no division, emits no telemetry sample and leaves the history,
the session aggregates and the live metrics unchanged. -/
theorem C5_guard_skips :
    ∀ (st : AppState) (s : SessionStats) (p : SamplePoint) (level now r : ℚ),
      st.session = some s → s.endTime = none → st.lastUpdate = some p →
      (p.level = level ∨ (now - p.time) / (1000 * 60 * 60) ≤ 0) →
      (step st true level now r).history = st.history ∧
      (step st true level now r).session = some s ∧
      (step st true level now r).metrics = st.metrics := by
  intro st s p level now r hs he hu hcase
  have hopen : sessionAfterOpen st.session now level = some s := by
    simp [sessionAfterOpen, hs, he]
  rcases hcase with hl | ht
  · rw [step_true_samelevel level now r hu hl]
    exact ⟨rfl, hopen, rfl⟩
  · by_cases hl : p.level = level
    · rw [step_true_samelevel level now r hu hl]
      exact ⟨rfl, hopen, rfl⟩
    · rw [step_true_stale level now r hu hl (not_lt.mpr ht)]
      exact ⟨rfl, hopen, rfl⟩

/-- Witness instantiating claim C5 at concrete inputs. -/
theorem C5_witness :
    (step { initState with session := some (newSession 0 (1/2)), lastUpdate := some (⟨0, 1/2⟩ : SamplePoint) } true (1/2) 60000 0).history = [] ∧
    (step { initState with session := some (newSession 0 (1/2)), lastUpdate := some (⟨0, 1/2⟩ : SamplePoint) } true (1/2) 60000 0).session = some (newSession 0 (1/2)) ∧
    (step { initState with session := some (newSession 0 (1/2)), lastUpdate := some (⟨0, 1/2⟩ : SamplePoint) } true (1/2) 60000 0).metrics = ⟨0, 0, 0⟩ :=
  C5_guard_skips _ (newSession 0 (1/2)) ⟨0, 1/2⟩ (1/2) 60000 0 rfl rfl rfl (Or.inl rfl)

/-- Claim C8: getChargingInsights is total over its modelled call
outcomes - the response text on success, the fixed fallback string on any
failure; resolving the insight request changes neither the session, the
telemetry history nor the stored sessions; and the session-close
transition has already committed (closed session at index 0 and in the
current slot) whatever the call outcome. -/
theorem C8_insight_error_handling :
    (∀ err : String, getChargingInsights (Except.error err)
        = some "Unable to generate AI insights at this moment.") ∧
    (∀ t : Option String, getChargingInsights (Except.ok t) = t) ∧
    (∀ (st : AppState) (res : Except String (Option String)),
       (deliverInsight st res).session = st.session ∧
       (deliverInsight st res).history = st.history ∧
       (deliverInsight st res).pastSessions = st.pastSessions) ∧
    (∀ (st : AppState) (s : SessionStats) (level now r : ℚ)
       (res : Except String (Option String)),
       st.session = some s → s.endTime = none →
       (deliverInsight (step st false level now r) res).pastSessions.head?
         = some { s with endTime := some now, endLevel := some level } ∧
       (deliverInsight (step st false level now r) res).session
         = some { s with endTime := some now, endLevel := some level }) := by
  refine ⟨fun _ => rfl, fun _ => rfl, fun st res => ⟨rfl, rfl, rfl⟩, ?_⟩
  intro st s level now r res hs he
  rw [step_false_open level now r hs he]
  exact ⟨rfl, rfl⟩

/-- Witness instantiating claim C8 at concrete inputs. -/
theorem C8_witness :
    (deliverInsight (step { initState with session := some (newSession 0 (1/2)) }
        false (3/5) 9000 0) (Except.error "network failure")).pastSessions.head?
      = some { newSession 0 (1/2) with endTime := some 9000, endLevel := some (3/5) } ∧
    (deliverInsight (step { initState with session := some (newSession 0 (1/2)) }
        false (3/5) 9000 0) (Except.error "network failure")).session
      = some { newSession 0 (1/2) with endTime := some 9000, endLevel := some (3/5) } :=
  C8_insight_error_handling.2.2.2 _ (newSession 0 (1/2)) (3/5) 9000 0
    (Except.error "network failure") rfl rfl

end VoltFlow
